import Mathlib

/-!
Verification of the ASIOTutorial chat system (Tutorial 5: `server.cpp`,
`client.cpp`, `connection.h`).

Bytes are modelled as `Nat` (values of the `unsigned char` read off the
wire), byte strings as `List Nat`.  The C++ `istream` over the connection's
accumulation buffer is modelled by `IStr`: the buffered bytes plus the
stream's good/fail state.  All definitions below are transcribed from the
C++ source; each carries a note naming the function it embeds.
-/

/-- Byte string of an ASCII string literal. -/
def strBytes (s : String) : List Nat := s.toList.map Char.toNat

/-- The four-byte command tags dispatched by `Server::_commandHandler`. -/
def cmdName : List Nat := strBytes "name"

def cmdChat : List Nat := strBytes "chat"

def cmdQuit : List Nat := strBytes "quit"

/-- Model of a C++ `istream` draining the connection's read buffer:
the remaining buffered bytes and the stream state (`good()`). -/
structure IStr where
  buf : List Nat
  good : Bool
deriving DecidableEq

/-- Embeds `getBytes(istream, count, out)` (server.cpp:25).  The loop runs
while `i < count && stream.good()`; `get()` on an exhausted stream returns
EOF (char value 255 as a byte) and puts the stream in a failed state, after
which the loop stops. -/
def getBytes : IStr → Nat → List Nat × IStr
  | s, 0 => ([], s)
  | s, n + 1 =>
    if s.good then
      match s.buf with
      | [] => ([255], ⟨[], false⟩)
      | b :: rest =>
        let r := getBytes ⟨rest, true⟩ n
        (b :: r.1, r.2)
    else ([], s)

/-- Embeds `(unsigned int)ntohl(*(int*)dataSizeStr.data())`
(server.cpp:90): the four bytes in memory order are interpreted as a
big-endian unsigned 32-bit integer.  Reading fewer than four bytes is
undefined behaviour in the source; the model returns 0 there, and no
theorem below depends on that branch. -/
def ntohlBytes : List Nat → Nat
  | [b0, b1, b2, b3] => ((b0 * 256 + b1) * 256 + b2) * 256 + b3
  | _ => 0

/-- Embeds the in-memory byte sequence of `htonl(n)` as appended by
`ServerConnection::sendMessage` (client.cpp:94): big-endian bytes of
`n` truncated to 32 bits. -/
def htonlBytes (n : Nat) : List Nat :=
  [n / 16777216 % 256, n / 65536 % 256, n / 256 % 256, n % 256]

/-- Embeds `ByteLimit::operator()` (server.cpp:39): the condition is
satisfied once at least `limit` bytes are buffered. -/
def byteLimit (limit : Nat) (buffered : List Nat) : Bool :=
  decide (limit ≤ buffered.length)

def COMMAND_LENGTH : Nat := 4

def HEADER_SIZE : Nat := 8

/-- One invocation of a `ClientConnection::MessageHandler`:
`(error, command, data)`. -/
structure HCall where
  err : Bool
  cmd : List Nat
  dat : List Nat
deriving DecidableEq

/-- Result of running `ClientConnection::_headerHandler`: the handler
invocations it performs directly, the data read it arms (ByteLimit size and
command), if any, and the stream state it leaves behind. -/
structure HeaderOutcome where
  calls : List HCall
  armedDataRead : Option (Nat × List Nat)
  rest : IStr
deriving DecidableEq

/-- Embeds `ClientConnection::_headerHandler` (server.cpp:79).  Note the
source has no `return` after `handler( error, "", "" )`: on error it still
decodes the (possibly truncated) header and either arms a data read or
invokes the handler a second time. -/
def headerHandler (error : Bool) (stream : IStr) : HeaderOutcome :=
  let errCalls : List HCall := if error then [⟨true, [], []⟩] else []
  let r1 := getBytes stream COMMAND_LENGTH
  let r2 := getBytes r1.2 4
  let dataSize := ntohlBytes r2.1
  if dataSize ≠ 0 then
    { calls := errCalls, armedDataRead := some (dataSize, r1.1), rest := r2.2 }
  else
    { calls := errCalls ++ [⟨error, r1.1, []⟩], armedDataRead := none, rest := r2.2 }

/-- Embeds `istream::get(char*, streamsize)` extraction: read up to `n`
characters, stopping early (without extraction) at the newline delimiter or
at end of input. -/
def extractUpTo : List Nat → Nat → List Nat
  | _, 0 => []
  | [], _ + 1 => []
  | b :: rest, n + 1 => if b = 10 then [] else b :: extractUpTo rest n

/-- Embeds the body of `ClientConnection::_dataHandler` (server.cpp:122):
`string data( dataSize, ' ' ); stream.get( &data.at( 0 ), dataSize + 1 );`.
`get` stores the extracted characters, then a terminating NUL; positions
past the NUL keep the space fill.  The string's length stays `dataSize`. -/
def cppGetData (buf : List Nat) (dataSize : Nat) : List Nat :=
  let ex := extractUpTo buf dataSize
  if ex.length < dataSize then
    ex ++ [0] ++ List.replicate (dataSize - ex.length - 1) 32
  else ex

/-- Embeds `ClientConnection::_dataHandler` (server.cpp:114): the single
handler invocation it performs. -/
def dataHandler (error : Bool) (buf : List Nat) (command : List Nat)
    (dataSize : Nat) : HCall :=
  ⟨error, command, cppGetData buf dataSize⟩

/-- All handler invocations of one decode cycle started by `readMessage`:
the header handler's own calls, followed by the data handler's call when a
data read was armed.  `err2` is the completion status of that armed data
read; no new bytes arrive for it in the traces considered here. -/
def cycleCalls (error : Bool) (stream : IStr) (err2 : Bool) : List HCall :=
  let o := headerHandler error stream
  match o.armedDataRead with
  | none => o.calls
  | some (n, cmd) => o.calls ++ [dataHandler err2 o.rest.buf cmd n]

/-- Decoding one fully buffered frame through the embedded handlers, with a
successful header read: the `(command, data)` pair delivered to the message
handler. -/
def decodeFrame (F : List Nat) : List Nat × List Nat :=
  let o := headerHandler false ⟨F, true⟩
  match o.armedDataRead with
  | some (n, cmd) => (cmd, (dataHandler false o.rest.buf cmd n).dat)
  | none =>
    match o.calls with
    | [c] => (c.cmd, c.dat)
    | _ => ([], [])

/-- Embeds `ServerConnection::sendMessage` (client.cpp:91): the encoded
frame is the command tag, the four `htonl` bytes of the payload size, then
the raw payload. -/
def sendMessage (command data : List Nat) : List Nat :=
  command ++ htonlBytes data.length ++ data

/-!
Room model.  A `Session` is one `ClientConnection` object (identified by
its pointer identity `cid`) together with its connection state, display
name, and whether a read is currently armed on it.  `RoomState` carries the
heap of session objects, `m_clientList` as a list of identities, and
whether the accept loop has a pending `async_accept`.
-/

/-- One `ClientConnection` object: pointer identity, socket open state,
`m_clientName`, and whether a `readUntil` is pending on it. -/
structure Session where
  cid : Nat
  connOpen : Bool
  sname : List Nat
  readPending : Bool
deriving DecidableEq

/-- The server's state touched by `Server::_commandHandler`: the session
heap, `m_clientList` (by identity, list order), and the accept loop. -/
structure RoomState where
  heap : List Session
  membership : List Nat
  acceptorArmed : Bool
deriving DecidableEq

/-- Update the session object with identity `c` in place (pointer
mutation). -/
def updSession (c : Nat) (f : Session → Session) (heap : List Session) :
    List Session :=
  heap.map fun s => if s.cid = c then f s else s

/-- Dereference a session pointer: first heap entry with this identity. -/
def findSession (heap : List Session) (c : Nat) : Option Session :=
  heap.find? fun s => s.cid = c

/-- `client->getName()` via the heap. -/
def getName (heap : List Session) (c : Nat) : List Nat :=
  match findSession heap c with
  | some s => s.sname
  | none => []

/-- `client->close()`: `Connection::close` shuts the socket down. -/
def closeConn (c : Nat) : List Session → List Session :=
  updSession c fun s => { s with connOpen := false }

/-- `client->setName( data )`. -/
def setSessionName (c : Nat) (n : List Nat) : List Session → List Session :=
  updSession c fun s => { s with sname := n }

/-- `Server::_readMessage( client )`: arms the next header read. -/
def armRead (c : Nat) : List Session → List Session :=
  updSession c fun s => { s with readPending := true }

/-- The broadcast text built by `Server::_chatHandler` (server.cpp:255). -/
def chatMsg (senderName data : List Nat) : List Nat :=
  senderName ++ strBytes ": " ++ data ++ [10]

/-- The log line of `Server::_unknownCommandHandler` (server.cpp:270). -/
def unknownLog (command senderName : List Nat) : List Nat :=
  strBytes "Unknown command \"" ++ command ++ strBytes "\" issued by " ++ senderName

/-- The log line of the error branch of `Server::_commandHandler`. -/
def readErrorLog : List Nat := strBytes "Read command error"

/-- Result of one run of `Server::_commandHandler`: the new room state,
the writes issued (recipient identity, bytes), and the log lines. -/
structure RoomStep where
  state : RoomState
  writes : List (Nat × List Nat)
  logs : List (List Nat)
deriving DecidableEq

/-- Embeds `Server::_commandHandler` (server.cpp:217) together with the
dispatched `_nameHandler`, `_chatHandler`, `_quitHandler` and
`_unknownCommandHandler`.  On error: close, `list::remove` (which drops
every occurrence), and return without re-arming.  Otherwise the command is
dispatched and then — unconditionally, `quit` included — `_readMessage(
client )` arms the next read. -/
def roomCommandHandler (r : RoomState) (sender : Nat) (error : Bool)
    (command data : List Nat) : RoomStep :=
  if error then
    { state := { r with heap := closeConn sender r.heap,
                        membership := r.membership.filter fun t => t ≠ sender },
      writes := [], logs := [readErrorLog] }
  else
    let afterCmd : RoomStep :=
      if command = cmdName then
        { state := { r with heap := setSessionName sender data r.heap },
          writes := [], logs := [] }
      else if command = cmdChat then
        { state := r,
          writes := (r.membership.filter fun t => t ≠ sender).map
            fun t => (t, chatMsg (getName r.heap sender) data),
          logs := [] }
      else if command = cmdQuit then
        { state := { r with heap := closeConn sender r.heap,
                            membership := r.membership.filter fun t => t ≠ sender },
          writes := [], logs := [] }
      else
        { state := r, writes := [],
          logs := [unknownLog command (getName r.heap sender)] }
    { afterCmd with
      state := { afterCmd.state with heap := armRead sender afterCmd.state.heap } }

/-!
Per-session read automaton.  The state is the list of in-flight read
operations on one session's connection (the server's decode cycle:
`readMessage` arms a header read; `_headerHandler` may arm a data read;
`_commandHandler` re-arms the header read).  A step is the completion of
the in-flight read, delivering an error flag and the buffered bytes.
-/

/-- An in-flight read operation on a session's connection. -/
inductive PendingRead
  | header
  | data (command : List Nat) (size : Nat)
deriving DecidableEq

/-- The reads armed and the frames dispatched by one `_commandHandler`
invocation: on error it returns without arming; otherwise it handles the
frame and arms the next header read. -/
def commandHandlerArm (error : Bool) (command dat : List Nat) :
    List PendingRead × List (List Nat × List Nat) :=
  if error then ([], []) else ([PendingRead.header], [(command, dat)])

/-- Result of one completion step on a session: reads now in flight,
frames the command handler dispatched without error, and whether this step
armed a header read. -/
structure SessStep where
  pending : List PendingRead
  dispatched : List (List Nat × List Nat)
  armedHeader : Bool
deriving DecidableEq

/-- Completion of the header read: `_headerHandler` with
`_commandHandler` bound as the message handler. -/
def sessHandleHeader (error : Bool) (stream : IStr) : SessStep :=
  let o := headerHandler error stream
  let armsFromCalls := o.calls.map fun c => commandHandlerArm c.err c.cmd c.dat
  let pending := (armsFromCalls.map Prod.fst).flatten ++
    (match o.armedDataRead with
     | some (n, cmd) => [PendingRead.data cmd n]
     | none => [])
  { pending := pending,
    dispatched := (armsFromCalls.map Prod.snd).flatten,
    armedHeader := pending.contains PendingRead.header }

/-- Completion of the data read: `_dataHandler` with `_commandHandler`
bound as the message handler. -/
def sessHandleData (error : Bool) (buf : List Nat) (command : List Nat)
    (size : Nat) : SessStep :=
  let call := dataHandler error buf command size
  let arm := commandHandlerArm call.err call.cmd call.dat
  { pending := arm.1, dispatched := arm.2,
    armedHeader := arm.1.contains PendingRead.header }

/-- One completion step of the session automaton: the head in-flight read
completes with status `error` and buffered bytes `stream`. -/
def sessStep (p : List PendingRead) (error : Bool) (stream : IStr) : SessStep :=
  match p with
  | [] => { pending := [], dispatched := [], armedHeader := false }
  | r :: rest =>
    let inner :=
      match r with
      | PendingRead.header => sessHandleHeader error stream
      | PendingRead.data cmd n => sessHandleData error stream.buf cmd n
    { inner with pending := rest ++ inner.pending }

/-- Reachable in-flight-read states of one accepted session: accept arms
the first header read (`Server::_acceptHandler` → `_readMessage`), then
completions drive the automaton. -/
inductive SessReach : List PendingRead → Prop
  | accept : SessReach [PendingRead.header]
  | step (p : List PendingRead) (error : Bool) (stream : IStr) :
      SessReach p → SessReach (sessStep p error stream).pending

/-!
Peer client (`client.cpp`).
-/

/-- `line.substr( pos, count )` for in-range `pos`: take up to `count`
characters starting at `pos`. -/
def cppSubstr (line : List Nat) (pos count : Nat) : List Nat :=
  (line.drop pos).take count

/-- Embeds `Client::_parseLine` (client.cpp:195).  `line[0]` on an empty
`std::string` reads the NUL terminator, so an empty line takes the chat
branch.  The escape marker is the backslash (byte 92). -/
def parseLine (line : List Nat) : List Nat × List Nat :=
  if line.headD 0 = 92 then
    (cppSubstr line 1 4,
     if line.length > 5 then line.drop 6 else [])
  else (cmdChat, line)

/-- The frame the client sends for one typed line:
`m_server->sendMessage( command, data )` after `_parseLine`. -/
def parseLineSend (line : List Nat) : List Nat :=
  sendMessage (parseLine line).1 (parseLine line).2

def RESOLVER_FAILURE : Nat := 2

/-- What `Client::_connectionHandler` (client.cpp:153) leaves behind:
whether `m_server` was wrapped, whether the connected message was printed,
whether the broadcast read loop was armed, and the exit code if the process
exited.  The source body never reads its `error` argument. -/
structure ConnectOutcome where
  serverWrapped : Bool
  printedDone : Bool
  readArmed : Bool
  exited : Option Nat
deriving DecidableEq

/-- Embeds `Client::_connectionHandler`: wrap the connection, print
"done.", arm `_readMessage` — on every outcome. -/
def connectionHandler (error : Bool) : ConnectOutcome :=
  { serverWrapped := true, printedDone := true, readArmed := true,
    exited := none }

/-- What `Client::_resolveHandler` (client.cpp:130) leaves behind. -/
structure ResolveOutcome where
  exited : Option Nat
  connectArmed : Bool
deriving DecidableEq

/-- Embeds `Client::_resolveHandler`: on error print and
`exit( RESOLVER_FAILURE )`, otherwise arm `async_connect`. -/
def resolveHandler (error : Bool) : ResolveOutcome :=
  if error then { exited := some RESOLVER_FAILURE, connectArmed := false }
  else { exited := none, connectArmed := true }

/-!
Concrete inputs used by witnesses and counterexamples.
-/

def sessA : Session := { cid := 1, connOpen := true, sname := strBytes "Alice", readPending := false }

def sessB : Session := { cid := 2, connOpen := true, sname := strBytes "Bob", readPending := false }

def sessC : Session := { cid := 3, connOpen := true, sname := strBytes "Carol", readPending := false }

/-- A three-member room (`m_clientList` holds the latest accept first). -/
def roomW : RoomState := { heap := [sessA, sessB, sessC], membership := [3, 2, 1], acceptorArmed := true }

/-- A two-member room used for the `quit` trace. -/
def roomQ : RoomState := { heap := [sessA, sessB], membership := [1, 2], acceptorArmed := true }

/-- A well-formed frame whose payload contains the LF byte. -/
def frameNL : List Nat := cmdChat ++ [0, 0, 0, 2] ++ [97, 10]

/-!
Helper lemmas.
-/

theorem getBytes_append (xs ys : List Nat) :
    getBytes ⟨xs ++ ys, true⟩ xs.length = (xs, ⟨ys, true⟩) := by
  induction xs with
  | nil => rfl
  | cons b rest ih => simp [getBytes, ih]

theorem ntohl_htonl (n : Nat) (h : n < 4294967296) :
    ntohlBytes (htonlBytes n) = n := by
  simp [ntohlBytes, htonlBytes]
  omega

theorem htonlBytes_length (n : Nat) : (htonlBytes n).length = 4 := rfl

theorem extractUpTo_full (xs : List Nat) (n : Nat) (hnl : 10 ∉ xs)
    (hlen : xs.length ≤ n) : extractUpTo xs n = xs := by
  induction xs generalizing n with
  | nil => cases n <;> rfl
  | cons b rest ih =>
    cases n with
    | zero => simp at hlen
    | succ m =>
      simp at hnl
      simp [extractUpTo, Ne.symm hnl.1, ih m hnl.2 (by simpa using hlen)]

theorem extractUpTo_length (xs : List Nat) (n : Nat) :
    (extractUpTo xs n).length ≤ n := by
  induction xs generalizing n with
  | nil => cases n <;> simp [extractUpTo]
  | cons b rest ih =>
    cases n with
    | zero => simp [extractUpTo]
    | succ m =>
      simp only [extractUpTo]
      split
      · simp
      · simpa using ih m

theorem cppGetData_length (buf : List Nat) (n : Nat) :
    (cppGetData buf n).length = n := by
  have h := extractUpTo_length buf n
  simp only [cppGetData]
  split
  · simp; omega
  · omega

theorem cppGetData_full (buf : List Nat) (n : Nat) (hnl : 10 ∉ buf)
    (hlen : buf.length = n) : cppGetData buf n = buf := by
  have hex : extractUpTo buf n = buf := extractUpTo_full buf n hnl (le_of_eq hlen)
  simp [cppGetData, hex, hlen]

theorem headerHandler_frame (cmd : List Nat) (h4 : cmd.length = 4) (N : Nat)
    (hN : N < 4294967296) (rest : List Nat) :
    headerHandler false ⟨cmd ++ (htonlBytes N ++ rest), true⟩ =
      if N = 0 then ⟨[⟨false, cmd, []⟩], none, ⟨rest, true⟩⟩
      else ⟨[], some (N, cmd), ⟨rest, true⟩⟩ := by
  have h1 : getBytes ⟨cmd ++ (htonlBytes N ++ rest), true⟩ COMMAND_LENGTH =
      (cmd, ⟨htonlBytes N ++ rest, true⟩) := by
    have := getBytes_append cmd (htonlBytes N ++ rest)
    rwa [h4] at this
  have h2 : getBytes ⟨htonlBytes N ++ rest, true⟩ 4 =
      (htonlBytes N, ⟨rest, true⟩) := by
    have := getBytes_append (htonlBytes N) rest
    rwa [htonlBytes_length] at this
  simp only [headerHandler, h1, h2, ntohl_htonl N hN]
  by_cases h0 : N = 0
  · simp [h0]
  · simp [h0]

theorem findSession_cid {heap : List Session} {c : Nat} {s : Session}
    (h : findSession heap c = some s) : s.cid = c := by
  have := List.find?_some h
  simpa using this

theorem findSession_updSession (c : Nat) (f : Session → Session)
    (hf : ∀ s, (f s).cid = s.cid) (heap : List Session) (x : Nat) :
    findSession (updSession c f heap) x =
      (findSession heap x).map fun s => if s.cid = c then f s else s := by
  induction heap with
  | nil => rfl
  | cons a l ih =>
    have hcid : (if a.cid = c then f a else a).cid = a.cid := by
      split
      · exact hf a
      · rfl
    have hg : updSession c f (a :: l) =
        (if a.cid = c then f a else a) :: updSession c f l := rfl
    by_cases hax : a.cid = x
    · simp only [findSession, hg]
      rw [List.find?_cons_of_pos _ (by simpa [hcid] using hax),
          List.find?_cons_of_pos _ (by simpa using hax)]
      rfl
    · simp only [findSession, hg] at ih ⊢
      rw [List.find?_cons_of_neg _ (by simpa [hcid] using hax),
          List.find?_cons_of_neg _ (by simpa using hax)]
      exact ih

theorem updSession_mem (c : Nat) (f : Session → Session) (heap : List Session)
    (s : Session) (hs : s ∈ heap) (hne : s.cid ≠ c) :
    s ∈ updSession c f heap := by
  have : (fun t => if t.cid = c then f t else t) s = s := by simp [hne]
  have hm := List.mem_map_of_mem (fun t => if t.cid = c then f t else t) hs
  rwa [this] at hm

theorem length_filter_ne_add_count (l : List Nat) (x : Nat) :
    (l.filter fun t => t ≠ x).length + l.count x = l.length := by
  induction l with
  | nil => rfl
  | cons a l ih =>
    by_cases hax : a = x
    · simp [List.filter_cons, List.count_cons, hax] at *
      omega
    · simp [List.filter_cons, List.count_cons, hax] at *
      omega

theorem sessHandleHeader_pending_len (e : Bool) (s : IStr) :
    (sessHandleHeader e s).pending.length ≤ 1 := by
  cases e <;>
    simp only [sessHandleHeader, headerHandler, commandHandlerArm] <;>
    split <;> simp

theorem sessHandleHeader_armed (e : Bool) (s : IStr)
    (h : (sessHandleHeader e s).armedHeader = true) :
    (sessHandleHeader e s).dispatched ≠ [] := by
  cases e <;>
    simp only [sessHandleHeader, headerHandler, commandHandlerArm] at h ⊢ <;>
    split at h <;> simp_all

theorem sessHandleData_pending_len (e : Bool) (buf command : List Nat)
    (n : Nat) : (sessHandleData e buf command n).pending.length ≤ 1 := by
  cases e <;> simp [sessHandleData, dataHandler, commandHandlerArm]

theorem sessHandleData_armed (e : Bool) (buf command : List Nat) (n : Nat)
    (h : (sessHandleData e buf command n).armedHeader = true) :
    (sessHandleData e buf command n).dispatched ≠ [] := by
  cases e <;> simp_all [sessHandleData, dataHandler, commandHandlerArm]

theorem sessStep_pending_len (p : List PendingRead) (e : Bool) (s : IStr)
    (hp : p.length ≤ 1) : (sessStep p e s).pending.length ≤ 1 := by
  match p with
  | [] => simp [sessStep]
  | r :: rest =>
    have hr : rest = [] := by
      simp only [List.length_cons] at hp
      exact List.length_eq_zero.mp (by omega)
    subst hr
    match r with
    | PendingRead.header =>
      simpa [sessStep] using sessHandleHeader_pending_len e s
    | PendingRead.data cmd n =>
      simpa [sessStep] using sessHandleData_pending_len e s.buf cmd n

theorem sessStep_armed (p : List PendingRead) (e : Bool) (s : IStr)
    (h : (sessStep p e s).armedHeader = true) :
    (sessStep p e s).dispatched ≠ [] := by
  match p with
  | [] => simp [sessStep] at h
  | r :: rest =>
    match r with
    | PendingRead.header =>
      have h' : (sessHandleHeader e s).armedHeader = true := by
        simpa [sessStep] using h
      simpa [sessStep] using sessHandleHeader_armed e s h'
    | PendingRead.data cmd n =>
      have h' : (sessHandleData e s.buf cmd n).armedHeader = true := by
        simpa [sessStep] using h
      simpa [sessStep] using sessHandleData_armed e s.buf cmd n h'

theorem sessReach_len (p : List PendingRead) (h : SessReach p) :
    p.length ≤ 1 := by
  induction h with
  | accept => simp
  | step q e s hq ih => exact sessStep_pending_len q e s ih

/-!
Claim theorems.
-/

/-- C1: the claim says that after dispatching a "quit" command the Room
closes the sender, removes it from membership, and arms no further read,
so the session never re-enters the awaiting-header state.  The code
violates the last part: `Server::_commandHandler` runs `_readMessage(
client )` unconditionally after the dispatch, "quit" included.  Evaluated
at a concrete two-member room where member 1 sends "quit": the sender is
closed and removed as claimed, yet a fresh header read is armed on the
closed session. -/
theorem quit_rearms_read_bug :
    (roomCommandHandler roomQ 1 false cmdQuit []).state.membership = [2] ∧
    findSession (roomCommandHandler roomQ 1 false cmdQuit []).state.heap 1 =
      some { cid := 1, connOpen := false, sname := strBytes "Alice",
             readPending := true } := by
  decide

/-- C2: every reachable in-flight-read state of a session's decode loop
holds at most one pending read, and a step of the loop arms the next
header read only if it dispatched a fully decoded frame to the command
handler. -/
theorem session_single_inflight_read :
    (∀ p, SessReach p → p.length ≤ 1) ∧
    (∀ (p : List PendingRead) (e : Bool) (s : IStr),
      (sessStep p e s).armedHeader = true → (sessStep p e s).dispatched ≠ []) :=
  ⟨sessReach_len, sessStep_armed⟩

/-- Witness for C2: the freshly accepted session satisfies the one-read
bound, and a step decoding a complete zero-length "quit" frame arms the
header read having dispatched that frame. -/
theorem session_single_inflight_read_witness :
    ([PendingRead.header] : List PendingRead).length ≤ 1 ∧
    (sessStep [PendingRead.header] false ⟨cmdQuit ++ [0, 0, 0, 0], true⟩).dispatched ≠ [] :=
  ⟨session_single_inflight_read.1 [PendingRead.header] SessReach.accept,
   session_single_inflight_read.2 [PendingRead.header] false
     ⟨cmdQuit ++ [0, 0, 0, 0], true⟩ (by decide)⟩

/-- C3: the claim says the message handler fires exactly once per decode
cycle and that a header-read error yields one error invocation with no
further read.  The code's `_headerHandler` lacks a `return` after the
error invocation: with the 7 bytes "chat\x00\x00\x00" buffered at an EOF
error it invokes the handler with the error, then decodes the truncated
header to dataSize 255 and arms a further data read, whose completion
invokes the handler a second time — two invocations in one cycle. -/
theorem header_error_double_dispatch_bug :
    (headerHandler true ⟨cmdChat ++ [0, 0, 0], true⟩).calls = [⟨true, [], []⟩] ∧
    (headerHandler true ⟨cmdChat ++ [0, 0, 0], true⟩).armedDataRead =
      some (255, cmdChat) ∧
    (cycleCalls true ⟨cmdChat ++ [0, 0, 0], true⟩ true).length = 2 := by
  decide

/-- C5: the claim says encode(decode(F)) reproduces every well-formed
frame byte-for-byte.  `_dataHandler` reads the payload with
`istream::get`, which stops at an LF byte and stores a NUL terminator, so
the well-formed frame `frameNL` = "chat" + length 2 + "a\n" decodes to
payload "a\x00" and re-encodes to a different frame. -/
theorem frame_roundtrip_newline_bug :
    cmdChat.length = 4 ∧
    ntohlBytes [0, 0, 0, 2] = 2 ∧
    ([97, 10] : List Nat).length = 2 ∧
    decodeFrame frameNL = (cmdChat, [97, 0]) ∧
    sendMessage (decodeFrame frameNL).1 (decodeFrame frameNL).2 ≠ frameNL := by
  decide

/-- C10: the peer client's connect-completion handler ignores its error
argument: for every outcome it wraps the connection, prints the connected
message, arms the broadcast read loop, and never exits — unlike the
resolver handler, which exits with RESOLVER_FAILURE on error. -/
theorem connect_handler_ignores_error :
    (∀ e : Bool, connectionHandler e = connectionHandler true ∧
      (connectionHandler e).serverWrapped = true ∧
      (connectionHandler e).printedDone = true ∧
      (connectionHandler e).readArmed = true ∧
      (connectionHandler e).exited = none) ∧
    (resolveHandler true).exited = some RESOLVER_FAILURE ∧
    (resolveHandler true).connectArmed = false :=
  ⟨fun _ => ⟨rfl, rfl, rfl, rfl, rfl⟩, rfl, rfl⟩

theorem roomCommandHandler_error (r : RoomState) (sender : Nat)
    (command dat : List Nat) :
    roomCommandHandler r sender true command dat =
      { state := { r with heap := closeConn sender r.heap,
                          membership := r.membership.filter fun t => t ≠ sender },
        writes := [], logs := [readErrorLog] } := rfl

theorem roomCommandHandler_chat (r : RoomState) (sender : Nat) (dat : List Nat) :
    roomCommandHandler r sender false cmdChat dat =
      { state := { r with heap := armRead sender r.heap },
        writes := (r.membership.filter fun t => t ≠ sender).map
          (fun t => (t, chatMsg (getName r.heap sender) dat)),
        logs := [] } := by
  have h1 : cmdChat ≠ cmdName := by decide
  simp [roomCommandHandler, h1]

theorem roomCommandHandler_unknown (r : RoomState) (sender : Nat)
    (command dat : List Nat) (h1 : command ≠ cmdName) (h2 : command ≠ cmdChat)
    (h3 : command ≠ cmdQuit) :
    roomCommandHandler r sender false command dat =
      { state := { r with heap := armRead sender r.heap },
        writes := [], logs := [unknownLog command (getName r.heap sender)] } := by
  simp [roomCommandHandler, h1, h2, h3]

theorem getName_eq (r : RoomState) (sender : Nat) (s : Session)
    (hs : findSession r.heap sender = some s) :
    getName r.heap sender = s.sname := by
  simp [getName, hs]

/-- C4: dispatching "chat" builds the single message
`"<name>: <payload>\n"` from the sender's current display name and writes
exactly that string to every membership entry except the sender; the
sender receives nothing. -/
theorem chat_broadcast_excludes_sender (r : RoomState) (sender : Nat)
    (s : Session) (dat : List Nat)
    (hs : findSession r.heap sender = some s) (hm : sender ∈ r.membership) :
    (roomCommandHandler r sender false cmdChat dat).writes =
      (r.membership.filter fun t => t ≠ sender).map
        (fun t => (t, chatMsg s.sname dat)) ∧
    (∀ w ∈ (roomCommandHandler r sender false cmdChat dat).writes,
      w.1 ≠ sender ∧ w.2 = chatMsg s.sname dat) ∧
    (∀ t ∈ r.membership, t ≠ sender →
      (t, chatMsg s.sname dat) ∈ (roomCommandHandler r sender false cmdChat dat).writes) := by
  rw [roomCommandHandler_chat, getName_eq r sender s hs]
  refine ⟨rfl, ?_, ?_⟩
  · intro w hw
    simp only [List.mem_map, List.mem_filter] at hw
    obtain ⟨t, ⟨ht, hts⟩, rfl⟩ := hw
    simpa using hts
  · intro t ht hts
    simp only [List.mem_map, List.mem_filter]
    exact ⟨t, ⟨ht, by simpa using hts⟩, rfl⟩

/-- Witness for C4: in the three-member room, Alice's chat goes exactly to
Carol and Bob with the shared message, never to Alice. -/
theorem chat_broadcast_excludes_sender_witness :
    (roomCommandHandler roomW 1 false cmdChat (strBytes "hi")).writes =
      (roomW.membership.filter fun t => t ≠ 1).map
        (fun t => (t, chatMsg sessA.sname (strBytes "hi"))) ∧
    (∀ w ∈ (roomCommandHandler roomW 1 false cmdChat (strBytes "hi")).writes,
      w.1 ≠ 1 ∧ w.2 = chatMsg sessA.sname (strBytes "hi")) ∧
    (∀ t ∈ roomW.membership, t ≠ 1 →
      (t, chatMsg sessA.sname (strBytes "hi")) ∈
        (roomCommandHandler roomW 1 false cmdChat (strBytes "hi")).writes) :=
  chat_broadcast_excludes_sender roomW 1 sessA (strBytes "hi") (by decide) (by decide)

/-- C7: a read completing with an error makes the Room close that
session's connection and drop it from membership — exactly once when it
appears once — while every other session object (its pending read
included), every other membership entry, and the accept loop are
untouched, and nothing is written. -/
theorem read_error_removes_only_sender (r : RoomState) (sender : Nat)
    (command dat : List Nat) (hc : r.membership.count sender = 1) :
    (roomCommandHandler r sender true command dat).state.membership =
      (r.membership.filter fun t => t ≠ sender) ∧
    (∀ s, findSession r.heap sender = some s →
      findSession (roomCommandHandler r sender true command dat).state.heap
        sender = some { s with connOpen := false }) ∧
    sender ∉ (roomCommandHandler r sender true command dat).state.membership ∧
    (∀ t, t ≠ sender →
      (t ∈ (roomCommandHandler r sender true command dat).state.membership ↔
        t ∈ r.membership)) ∧
    (roomCommandHandler r sender true command dat).state.membership.length + 1 =
      r.membership.length ∧
    (∀ s ∈ r.heap, s.cid ≠ sender →
      s ∈ (roomCommandHandler r sender true command dat).state.heap) ∧
    (roomCommandHandler r sender true command dat).state.acceptorArmed =
      r.acceptorArmed ∧
    (roomCommandHandler r sender true command dat).writes = [] := by
  rw [roomCommandHandler_error]
  refine ⟨rfl, ?_, ?_, ?_, ?_, ?_, rfl, rfl⟩
  · intro s hs
    have hcid := findSession_cid hs
    have hu := findSession_updSession sender
      (fun t => { t with connOpen := false }) (fun t => rfl) r.heap sender
    simp only [closeConn, hu, hs, Option.map_some]
    simp [hcid]
  · simp
  · intro t hts
    simp [List.mem_filter, hts]
  · have := length_filter_ne_add_count r.membership sender
    simp only []
    omega
  · intro s hsh hsc
    exact updSession_mem sender _ r.heap s hsh hsc

/-- Witness for C7: in the three-member room, a read error on member 2
closes exactly that session and removes exactly that one entry. -/
theorem read_error_removes_only_sender_witness :
    (roomCommandHandler roomW 2 true [] []).state.membership =
      (roomW.membership.filter fun t => t ≠ 2) ∧
    findSession (roomCommandHandler roomW 2 true [] []).state.heap 2 =
      some { sessB with connOpen := false } ∧
    (roomCommandHandler roomW 2 true [] []).state.membership.length + 1 =
      roomW.membership.length :=
  ⟨(read_error_removes_only_sender roomW 2 [] [] (by decide)).1,
   (read_error_removes_only_sender roomW 2 [] [] (by decide)).2.1 sessB
     (by decide),
   (read_error_removes_only_sender roomW 2 [] [] (by decide)).2.2.2.2.1⟩
/-- C8: a dispatched frame with an unknown tag is logged with its tag, the
session stays in membership with its connection state untouched, its next
read is re-armed, nothing is written, and the accept loop is untouched. -/
theorem unknown_command_keeps_session (r : RoomState) (sender : Nat)
    (s : Session) (command dat : List Nat)
    (hs : findSession r.heap sender = some s)
    (h1 : command ≠ cmdName) (h2 : command ≠ cmdChat) (h3 : command ≠ cmdQuit) :
    (roomCommandHandler r sender false command dat).state.membership =
      r.membership ∧
    findSession (roomCommandHandler r sender false command dat).state.heap
      sender = some { s with readPending := true } ∧
    (roomCommandHandler r sender false command dat).logs =
      [unknownLog command s.sname] ∧
    (roomCommandHandler r sender false command dat).writes = [] ∧
    (roomCommandHandler r sender false command dat).state.acceptorArmed =
      r.acceptorArmed := by
  rw [roomCommandHandler_unknown r sender command dat h1 h2 h3,
    getName_eq r sender s hs]
  refine ⟨rfl, ?_, rfl, rfl, rfl⟩
  have hcid := findSession_cid hs
  have hu := findSession_updSession sender
    (fun t => { t with readPending := true }) (fun t => rfl) r.heap sender
  simp only [armRead, hu, hs, Option.map_some]
  simp [hcid]

/-- Witness for C8: a "nope" frame from Bob in the three-member room keeps
membership intact, re-arms Bob's read, and logs the unknown tag. -/
theorem unknown_command_keeps_session_witness :
    (roomCommandHandler roomW 2 false (strBytes "nope") []).state.membership =
      roomW.membership ∧
    findSession (roomCommandHandler roomW 2 false (strBytes "nope") []).state.heap
      2 = some { sessB with readPending := true } ∧
    (roomCommandHandler roomW 2 false (strBytes "nope") []).logs =
      [unknownLog (strBytes "nope") sessB.sname] ∧
    (roomCommandHandler roomW 2 false (strBytes "nope") []).writes = [] ∧
    (roomCommandHandler roomW 2 false (strBytes "nope") []).state.acceptorArmed =
      roomW.acceptorArmed :=
  unknown_command_keeps_session roomW 2 sessB (strBytes "nope") []
    (by decide) (by decide) (by decide) (by decide)
/-- C6: for a frame whose header carries payload length N, a successful
header read with N = 0 invokes the handler immediately with an empty
payload and arms no second read; with N > 0 it arms one data read with
ByteLimit N, and once that limit is satisfied the data handler delivers a
payload of exactly N bytes. -/
theorem payload_length_matches_header (cmd rest : List Nat) (N : Nat)
    (h4 : cmd.length = 4) (hN : N < 4294967296) :
    (N = 0 →
      headerHandler false ⟨cmd ++ (htonlBytes N ++ rest), true⟩ =
        ⟨[⟨false, cmd, []⟩], none, ⟨rest, true⟩⟩) ∧
    (0 < N →
      headerHandler false ⟨cmd ++ (htonlBytes N ++ rest), true⟩ =
        ⟨[], some (N, cmd), ⟨rest, true⟩⟩) ∧
    (∀ buf, byteLimit N buf = true →
      (dataHandler false buf cmd N).dat.length = N) := by
  have h := headerHandler_frame cmd h4 N hN rest
  refine ⟨?_, ?_, ?_⟩
  · intro h0
    rw [h, if_pos h0]
  · intro h0
    rw [h, if_neg (by omega)]
  · intro buf hbl
    simpa [dataHandler] using cppGetData_length buf N

/-- Witness for C6: a zero-length "quit" frame completes immediately with
no second read, and a "chat" frame of length 5 arms a ByteLimit-5 data
read that delivers exactly 5 bytes. -/
theorem payload_length_matches_header_witness :
    headerHandler false ⟨cmdQuit ++ (htonlBytes 0 ++ []), true⟩ =
      ⟨[⟨false, cmdQuit, []⟩], none, ⟨[], true⟩⟩ ∧
    headerHandler false ⟨cmdChat ++ (htonlBytes 5 ++ strBytes "hello"), true⟩ =
      ⟨[], some (5, cmdChat), ⟨strBytes "hello", true⟩⟩ ∧
    (dataHandler false (strBytes "hello") cmdChat 5).dat.length = 5 :=
  ⟨(payload_length_matches_header cmdQuit [] 0 (by decide) (by decide)).1 rfl,
   (payload_length_matches_header cmdChat (strBytes "hello") 5
     (by decide) (by decide)).2.1 (by decide),
   (payload_length_matches_header cmdChat (strBytes "hello") 5
     (by decide) (by decide)).2.2 (strBytes "hello") (by decide)⟩
/-- C9: a typed line starting with the backslash escape marker followed by
a four-character command parses to that command with data equal to the
text after the separator position (empty when nothing follows the
command), and any other line parses to an implicit "chat" whose payload is
the whole line; the sent frame encodes exactly that pair. -/
theorem parse_line_matches (line cmd4 rest : List Nat) :
    (line = 92 :: (cmd4 ++ rest) → cmd4.length = 4 →
      parseLine line = (cmd4, rest.tail) ∧
      parseLineSend line = sendMessage cmd4 rest.tail) ∧
    (line.headD 0 ≠ 92 →
      parseLine line = (cmdChat, line) ∧
      parseLineSend line = sendMessage cmdChat line) := by
  constructor
  · intro hline h4
    subst hline
    have hcmd : cppSubstr (92 :: (cmd4 ++ rest)) 1 4 = cmd4 := by
      simp only [cppSubstr, List.drop_succ_cons, List.drop_zero]
      exact List.take_left' h4
    have hdat : (if (92 :: (cmd4 ++ rest)).length > 5
        then List.drop 6 (92 :: (cmd4 ++ rest)) else []) = rest.tail := by
      by_cases hr : rest = []
      · subst hr
        simp [h4]
      · obtain ⟨x, d, rfl⟩ := List.exists_cons_of_ne_nil hr
        have hlen : (92 :: (cmd4 ++ x :: d)).length > 5 := by
          simp [h4]
          omega
        rw [if_pos hlen]
        have hsplit : cmd4 ++ x :: d = (cmd4 ++ [x]) ++ d := by simp
        have h5 : (cmd4 ++ [x]).length = 5 := by simp [h4]
        simp only [List.drop_succ_cons, hsplit]
        exact List.drop_left' h5
    have hpl : parseLine (92 :: (cmd4 ++ rest)) = (cmd4, rest.tail) := by
      simp only [parseLine, List.headD_cons, eq_self_iff_true, if_true,
        hcmd, hdat]
    exact ⟨hpl, by simp [parseLineSend, hpl]⟩
  · intro hh
    have hpl : parseLine line = (cmdChat, line) := by
      simp only [parseLine]
      rw [if_neg hh]
    exact ⟨hpl, by simp [parseLineSend, hpl]⟩

/-- Witness for C9: the line "\name Al" parses to command "name" with data
"Al", and the line "hi" parses to an implicit chat of "hi". -/
theorem parse_line_matches_witness :
    (parseLine (92 :: (strBytes "name" ++ (32 :: strBytes "Al"))) =
      (strBytes "name", (32 :: strBytes "Al").tail) ∧
     parseLineSend (92 :: (strBytes "name" ++ (32 :: strBytes "Al"))) =
      sendMessage (strBytes "name") ((32 :: strBytes "Al").tail)) ∧
    (parseLine (strBytes "hi") = (cmdChat, strBytes "hi") ∧
     parseLineSend (strBytes "hi") = sendMessage cmdChat (strBytes "hi")) :=
  ⟨(parse_line_matches (92 :: (strBytes "name" ++ (32 :: strBytes "Al")))
      (strBytes "name") (32 :: strBytes "Al")).1 rfl (by decide),
   (parse_line_matches (strBytes "hi") [] []).2 (by decide)⟩
